import Mathlib

/-!
Verification of the redigo asynchronous TCP cache server
(`src/server/server.go`) against its natural-language specification.

The development shallowly embeds the server's command dispatch
(`handlecommand` and the `handleSet` / `handleSetWithTTL` / `handleGet` /
`handleDel` / `handleHas` helpers), the per-event behaviour of the `Start`
event loop (accept path, client read/handle/write path, sweep check, poll
retry), and the pre-loop startup sequence of `Start`.

The `cache` package (`github.com/KavetiRohith/go-cache/cache`) is imported
by the server but its source is not part of this repository snapshot, so
the cache operations are modelled from the specification (section 4.2);
each such definition says so in its doc comment.

Machine integers: the Go `uint` connection counter is modelled as a `Nat`
reduced modulo `2 ^ 64`; timestamps are modelled as `Int` (nanoseconds or
any fixed granularity — only ordering and addition are used).
-/

namespace Redigo

deriving instance DecidableEq for Except

/-- Accumulate maximal runs of non-whitespace characters; `acc` holds the
current run, reversed. -/
def fieldsAux : List Char → List Char → List String
  | acc, [] => if acc.isEmpty then [] else [⟨acc.reverse⟩]
  | acc, c :: cs =>
    if c.isWhitespace then
      if acc.isEmpty then fieldsAux [] cs
      else ⟨acc.reverse⟩ :: fieldsAux [] cs
    else fieldsAux (c :: acc) cs

/-- Model of Go `strings.Fields`: the maximal whitespace-separated runs of
the string, in order, with empty runs dropped.  (Go splits on
`unicode.IsSpace`; `Char.isWhitespace` covers space, tab, CR and LF, which
is the relevant fragment here.) -/
def fields (s : String) : List String :=
  fieldsAux [] s.data

/-- Numeric value of a digit string: `some n` when the list is nonempty and
all characters are decimal digits, `none` otherwise. -/
def digitsVal? (cs : List Char) : Option Nat :=
  if cs = [] ∨ ¬ cs.all Char.isDigit then none
  else some (cs.foldl (fun a c => a * 10 + (c.toNat - ('0').toNat)) 0)

/-- Model of Go `strconv.Atoi`: optional sign followed by at least one
decimal digit, rejecting anything else and anything outside the `int64`
range (Go returns a range error there, which the caller treats the same as
a syntax error). -/
def atoi? (s : String) : Option Int :=
  let p : Bool × List Char :=
    match s.data with
    | '-' :: r => (true, r)
    | '+' :: r => (false, r)
    | r => (false, r)
  match digitsVal? p.2 with
  | none => none
  | some n =>
    let v : Int := if p.1 then -(n : Int) else (n : Int)
    if v < -(2 ^ 63) ∨ (2 ^ 63 - 1 : Int) < v then none else some v

/-- Cache entry.  Modelled from the spec (section 3): key, value, and an
optional absolute expiry timestamp; an absent `expiresAt` never expires. -/
structure Entry where
  key : String
  value : String
  expiresAt : Option Int
deriving DecidableEq, Repr

/-- The in-memory store of the `cache` package, modelled as an association
list with unique keys (last write wins). -/
abbrev Cache := List Entry

/-- An entry is expired iff `now >= expiresAt` (spec section 4.2, numeric
semantics). -/
def expiredAt (now : Int) (e : Entry) : Bool :=
  match e.expiresAt with
  | none => false
  | some t => t ≤ now

/-- Look up the entry stored under `k`, ignoring expiry. -/
def cacheLookup (c : Cache) (k : String) : Option Entry :=
  c.find? (fun e => e.key == k)

/-- Remove any entry stored under `k`. -/
def cacheErase (c : Cache) (k : String) : Cache :=
  c.filter (fun e => e.key != k)

/-- Modelled from the spec: `cache.Set` — unconditional upsert clearing any
prior expiry; always succeeds (section 4.2). -/
def cacheSet (c : Cache) (k v : String) : Cache :=
  ⟨k, v, none⟩ :: cacheErase c k

/-- Modelled from the spec: `cache.SetWithTTL` — upsert with absolute
expiry `now + ttlSeconds`; fails with `InvalidArgument` if `ttlSeconds` is
negative (section 4.2). -/
def cacheSetWithTTL (now : Int) (c : Cache) (k v : String) (ttl : Int) :
    Except String Cache :=
  if ttl < 0 then Except.error "ttl must be a non-negative integer"
  else Except.ok (⟨k, v, some (now + ttl)⟩ :: cacheErase c k)

/-- Modelled from the spec: `cache.Get` — returns the value if present and
not expired, fails with `NotFound` otherwise; an expired entry met here is
evicted eagerly (section 4.2). -/
def cacheGet (now : Int) (c : Cache) (k : String) :
    Except String String × Cache :=
  match cacheLookup c k with
  | none => (Except.error "key not found", c)
  | some e =>
    if expiredAt now e then (Except.error "key not found", cacheErase c k)
    else (Except.ok e.value, c)

/-- Modelled from the spec: `cache.Delete` — removes the key if present
(and not lazily expired, section 7 taxonomy), fails with `NotFound`
otherwise. -/
def cacheDelete (now : Int) (c : Cache) (k : String) :
    Except String Cache :=
  match cacheLookup c k with
  | none => Except.error "key not found"
  | some e =>
    if expiredAt now e then Except.error "key not found"
    else Except.ok (cacheErase c k)

/-- Modelled from the spec: `cache.Has` — boolean presence check; an
expired key is not present and is evicted eagerly (section 4.2). -/
def cacheHas (now : Int) (c : Cache) (k : String) : Bool × Cache :=
  match cacheLookup c k with
  | none => (false, c)
  | some e =>
    if expiredAt now e then (false, cacheErase c k)
    else (true, c)

/-- Modelled from the spec: `cache.DeleteExpiredKeys` — evicts every entry
whose expiry is in the past relative to `now` (section 4.2, `sweepExpired`). -/
def cacheSweep (now : Int) (c : Cache) : Cache :=
  c.filter (fun e => ! expiredAt now e)

/-- `Server.handleSet` (server.go:191): `cache.Set` then reply `Success`. -/
def handleSet (c : Cache) (k v : String) : Except String String × Cache :=
  (Except.ok "Success", cacheSet c k v)

/-- `Server.handleSetWithTTL` (server.go:201): parse the TTL with `Atoi`,
reply `invalid TTl` on parse failure, otherwise `cache.SetWithTTL` and
reply `Success` (or the cache's error). -/
def handleSetWithTTL (now : Int) (c : Cache) (k v ttl : String) :
    Except String String × Cache :=
  match atoi? ttl with
  | none => (Except.error "invalid TTl", c)
  | some t =>
    match cacheSetWithTTL now c k v t with
    | Except.error e => (Except.error e, c)
    | Except.ok c' => (Except.ok "Success", c')

/-- `Server.handleGet` (server.go:215): `cache.Get`, replying the stored
value on success. -/
def handleGet (now : Int) (c : Cache) (k : String) :
    Except String String × Cache :=
  match cacheGet now c k with
  | (Except.error e, c') => (Except.error e, c')
  | (Except.ok v, c') => (Except.ok v, c')

/-- `Server.handleDel` (server.go:225): `cache.Delete` then reply
`Success` (or the cache's error). -/
def handleDel (now : Int) (c : Cache) (k : String) :
    Except String String × Cache :=
  match cacheDelete now c k with
  | Except.error e => (Except.error e, c)
  | Except.ok c' => (Except.ok "Success", c')

/-- `Server.handleHas` (server.go:235): `cache.Has`, replying `Yes` when
present and `No` when absent — never an error. -/
def handleHas (now : Int) (c : Cache) (k : String) :
    Except String String × Cache :=
  match cacheHas now c k with
  | (false, c') => (Except.ok "No", c')
  | (true, c') => (Except.ok "Yes", c')

/-- `Server.handlecommand` (server.go:152): split the raw line into
whitespace-delimited tokens, require at least a command and a key,
dispatch on the leading token; `SET` additionally requires exactly 3 or 4
tokens. -/
def handlecommand (now : Int) (c : Cache) (rawCmd : String) :
    Except String String × Cache :=
  let parts := fields rawCmd
  if parts.length < 2 then
    (Except.error "message must atleast have command and key", c)
  else
    let cmd := parts.getD 0 ""
    let key := parts.getD 1 ""
    match cmd with
    | "SET" =>
      match parts.length with
      | 3 => handleSet c key (parts.getD 2 "")
      | 4 => handleSetWithTTL now c key (parts.getD 2 "") (parts.getD 3 "")
      | _ => (Except.error "SET message must atleast have key and value", c)
    | "GET" => handleGet now c key
    | "DEL" => handleDel now c key
    | "HAS" => handleHas now c key
    | _ => (Except.error ("unknown Command " ++ cmd), c)

/-- Modulus of the Go `uint` connection counter (64-bit). -/
def uintMod : Nat := 2 ^ 64

/-- Mutable server state touched by one iteration of the `Start` loop:
the cache, the `con_clients` counter (a Go `uint`, stored reduced modulo
`2 ^ 64`) and the `lastCronExecTime` / `CronFrequency` sweep bookkeeping. -/
structure SState where
  cache : Cache
  conClients : Nat
  lastCronExecTime : Int
  cronFrequency : Int
deriving DecidableEq, Repr

/-- Outcome of servicing one readiness event on a client handle
(server.go:124–147): the updated state, whether the handle was closed
(closing also unregisters it from the multiplexer), and the payload passed
to `conn.Write`, if any. -/
structure ClientOut where
  state : SState
  closed : Bool
  written : Option String
deriving DecidableEq, Repr

/-- Readiness event on a client handle (server.go:124–147).  `readRes` is
the result of `ReadBytes` — `none` for a read error (orderly close or
would-block included), `some line` for a successfully read line; `writeOk`
says whether the subsequent `conn.Write` succeeds.  A read error closes
the handle and decrements `con_clients` with nothing written; otherwise the
command is dispatched, the reply (or the error's message) plus one newline
is written, and a write failure closes the handle and decrements the
counter. -/
def clientEvent (now : Int) (s : SState) (readRes : Option String)
    (writeOk : Bool) : ClientOut :=
  match readRes with
  | none =>
    ⟨{ s with conClients := (s.conClients + uintMod - 1) % uintMod },
      true, none⟩
  | some line =>
    let rc := handlecommand now s.cache line
    let resp := match rc.1 with
      | Except.ok r => r
      | Except.error e => e
    let s' := { s with cache := rc.2 }
    if writeOk then ⟨s', false, some (resp ++ "\n")⟩
    else
      ⟨{ s' with conClients := (s'.conClients + uintMod - 1) % uintMod },
        true, some (resp ++ "\n")⟩

/-- Outcome of a readiness event on the listening handle
(server.go:104–122): updated state, the error `Start` returns (if any),
and whether the freshly accepted handle was closed on that path. -/
structure AcceptOut where
  state : SState
  fatal : Option String
  newHandleClosed : Bool
deriving DecidableEq, Repr

/-- Readiness event on the listening handle (server.go:104–122).  An
`Accept` failure is logged and skipped; otherwise `con_clients` is
incremented and the new handle subscribed to the multiplexer — a
subscription failure makes `Start` return that error, with the handle left
open and the increment kept. -/
def acceptEvent (s : SState) (acceptErr : Bool)
    (subscribeErr : Option String) : AcceptOut :=
  if acceptErr then ⟨s, none, false⟩
  else
    let s1 := { s with conClients := (s.conClients + 1) % uintMod }
    match subscribeErr with
    | some e => ⟨s1, some e, false⟩
    | none => ⟨s1, none, false⟩

/-- One readiness event as reported by `Poll`: either the listening socket
is ready (with the outcomes of the `Accept` and `Subscribe` calls) or a
client handle is ready (with the outcomes of the read and the write). -/
inductive Ev
  | server (acceptErr : Bool) (subscribeErr : Option String)
  | client (readRes : Option String) (writeOk : Bool)
deriving DecidableEq, Repr

/-- Result of one pass over the ready events (server.go:102–148): either
the loop proceeds to its next iteration with the updated state, or `Start`
returns an error. -/
inductive IterOut
  | next (s : SState)
  | ret (e : String) (s : SState)
deriving DecidableEq, Repr

/-- Service the ready events in the order the multiplexer reported them
(server.go:102–148); a fatal subscription error aborts the pass and makes
`Start` return. -/
def processEvents (now : Int) (s : SState) : List Ev → IterOut
  | [] => IterOut.next s
  | Ev.server aErr sErr :: rest =>
    let o := acceptEvent s aErr sErr
    match o.fatal with
    | some e => IterOut.ret e o.state
    | none => processEvents now o.state rest
  | Ev.client rr wo :: rest =>
    processEvents now (clientEvent now s rr wo).state rest

/-- Sweep check at the top of each loop iteration (server.go:91–94):
`time.Now().After(lastCronExecTime.Add(CronFrequency))` — a strict
comparison — triggers `cache.DeleteExpiredKeys()` and resets
`lastCronExecTime` to a fresh `time.Now()` sample (`now2`).  Returns the
updated state and whether the sweep ran. -/
def sweepCheck (now1 now2 : Int) (s : SState) : SState × Bool :=
  if s.lastCronExecTime + s.cronFrequency < now1 then
    ({ s with cache := cacheSweep now1 s.cache, lastCronExecTime := now2 },
      true)
  else (s, false)

/-- One full iteration of the `Start` main loop (server.go:90–149): run
the sweep check, then poll; a poll error (`pollRes = none`) just continues
the loop, otherwise the ready events are serviced in order.  `now1` and
`now2` are the two `time.Now()` samples of the sweep check and `nowCmd`
the reference time for command execution. -/
def loopIter (now1 now2 nowCmd : Int) (s : SState)
    (pollRes : Option (List Ev)) : IterOut :=
  let s1 := (sweepCheck now1 now2 s).1
  match pollRes with
  | none => IterOut.next s1
  | some evs => processEvents nowCmd s1 evs

/-- How the pre-loop part of `Start` (server.go:38–88) terminates: an
error returned to the caller, a `log.Fatal` process exit, or entry into
the main loop. -/
inductive PreLoopResult
  | retErr (e : String)
  | fatalExit (e : String)
  | loopEntered
deriving DecidableEq, Repr

/-- Pre-loop sequence of `Start` (server.go:44–88): socket creation,
`SetNonblock`, `Bind` and `Listen` failures are returned; a multiplexer
creation failure goes through `log.Fatal` (process exit, not a return);
a failure subscribing the listening socket is returned. -/
def startPre (socketErr setNonblockErr bindErr listenErr muxNewErr
    subscribeErr : Option String) : PreLoopResult :=
  match socketErr with
  | some e => PreLoopResult.retErr e
  | none =>
  match setNonblockErr with
  | some e => PreLoopResult.retErr e
  | none =>
  match bindErr with
  | some e => PreLoopResult.retErr e
  | none =>
  match listenErr with
  | some e => PreLoopResult.retErr e
  | none =>
  match muxNewErr with
  | some e => PreLoopResult.fatalExit e
  | none =>
  match subscribeErr with
  | some e => PreLoopResult.retErr e
  | none => PreLoopResult.loopEntered

/-! ## Theorems -/

/-- C1: for every SET command line with exactly 4 tokens whose `ttlSeconds`
token is not a non-negative integer — non-numeric or a negative integer —
dispatch rejects the command with an error and leaves the cache unchanged. -/
theorem C1_invalid_ttl_rejected (now : Int) (c : Cache)
    (line k v ttl : String) (hf : fields line = ["SET", k, v, ttl])
    (hbad : atoi? ttl = none ∨ ∃ t, atoi? ttl = some t ∧ t < 0) :
    ∃ e, handlecommand now c line = (Except.error e, c) := by
  simp only [handlecommand, hf]
  norm_num
  rcases hbad with hnone | ⟨t, ht, htneg⟩
  · exact ⟨"invalid TTl", by simp [handleSetWithTTL, hnone]⟩
  · refine ⟨"ttl must be a non-negative integer", ?_⟩
    simp [handleSetWithTTL, ht, cacheSetWithTTL, htneg]

/-- Witness for C1 at the concrete lines `SET a b xx` and `SET a b -1`. -/
theorem C1_invalid_ttl_rejected_witness :
    (∃ e, handlecommand 0 [] "SET a b xx" = (Except.error e, [])) ∧
    (∃ e, handlecommand 0 [] "SET a b -1" = (Except.error e, [])) :=
  ⟨C1_invalid_ttl_rejected 0 [] "SET a b xx" "a" "b" "xx" (by decide)
      (Or.inl (by decide)),
   C1_invalid_ttl_rejected 0 [] "SET a b -1" "a" "b" "-1" (by decide)
      (Or.inr ⟨-1, by decide, by decide⟩)⟩

/-- C2 counterexample: a multiplexer creation failure goes through
`log.Fatal` — a process exit — and is not returned to the caller of
`Start`, contrary to the claim that every such failure is propagated out
of `Start`. -/
theorem C2_counterexample :
    startPre none none none none (some "epoll creation failed") none =
      PreLoopResult.fatalExit "epoll creation failed" ∧
    startPre none none none none (some "epoll creation failed") none ≠
      PreLoopResult.retErr "epoll creation failed" := by
  exact ⟨rfl, by decide⟩

/-- C2 (amended): every failure of registering a handle with the
multiplexer — the listening socket before the loop, or a freshly accepted
client inside it — makes `Start` return that error, while a multiplexer
creation failure instead terminates the process via `log.Fatal`. -/
theorem C2_registration_failures_propagate :
    (∀ e, startPre none none none none none (some e) =
      PreLoopResult.retErr e)
    ∧ (∀ now s e rest,
        processEvents now s (Ev.server false (some e) :: rest) =
          IterOut.ret e
            { s with conClients := (s.conClients + 1) % uintMod })
    ∧ (∀ e, startPre none none none none (some e) none =
        PreLoopResult.fatalExit e) :=
  ⟨fun _ => rfl, fun _ _ _ _ => rfl, fun _ => rfl⟩

/-- C3: dispatch rejects a line with fewer than 2 tokens, rejects `SET`
with any token count other than 3 or 4, rejects an unknown leading token,
and `SET a b` succeeds, storing `b` under `a`, with the `Success` reply. -/
theorem C3_dispatch_validation :
    (∀ now c line, (fields line).length < 2 →
      handlecommand now c line =
        (Except.error "message must atleast have command and key", c))
    ∧ (∀ now c line, 2 ≤ (fields line).length →
        (fields line).getD 0 "" = "SET" →
        (fields line).length ≠ 3 → (fields line).length ≠ 4 →
        handlecommand now c line =
          (Except.error "SET message must atleast have key and value", c))
    ∧ (∀ now c line, 2 ≤ (fields line).length →
        (fields line).getD 0 "" ∉ (["SET", "GET", "DEL", "HAS"] : List String) →
        handlecommand now c line =
          (Except.error ("unknown Command " ++ (fields line).getD 0 ""), c))
    ∧ (∀ now c, (handlecommand now c "SET a b").1 = Except.ok "Success"
        ∧ cacheLookup (handlecommand now c "SET a b").2 "a" =
            some ⟨"a", "b", none⟩) := by
  refine ⟨?_, ?_, ?_, ?_⟩
  · intro now c line h
    simp only [handlecommand]
    rw [if_pos h]
  · intro now c line h2 hcmd h3 h4
    rcases hf : fields line with _ | ⟨a, _ | ⟨b, rest⟩⟩ <;>
      rw [hf] at h2 <;> try simp at h2
    rw [hf] at hcmd h3 h4
    simp only [List.getD, List.get?, Option.getD] at hcmd
    subst hcmd
    simp only [handlecommand, hf]
    norm_num
  · intro now c line h2 hcmd
    rcases hf : fields line with _ | ⟨a, _ | ⟨b, rest⟩⟩ <;>
      rw [hf] at h2 <;> try simp at h2
    rw [hf] at hcmd
    simp only [List.getD, List.get?, Option.getD] at hcmd ⊢
    simp only [List.mem_cons, List.mem_singleton, not_or] at hcmd
    simp only [handlecommand, hf]
    rw [if_neg (by simp only [List.length_cons]; omega)]
    split
    · rename_i h
      exact absurd h hcmd.1
    · rename_i h
      exact absurd h hcmd.2.1
    · rename_i h
      exact absurd h hcmd.2.2.1
    · rename_i h
      exact absurd h hcmd.2.2.2.1
    · rfl
  · intro now c
    have hf : fields "SET a b" = ["SET", "a", "b"] := by decide
    constructor
    · simp [handlecommand, hf, handleSet]
    · simp [handlecommand, hf, handleSet, cacheSet, cacheLookup,
        List.find?]

/-- Witness for C3 at the concrete lines `X`, `SET a`, `SET a b c d`,
`FOO a` and `SET a b`. -/
theorem C3_dispatch_validation_witness :
    handlecommand 0 [] "X" =
      (Except.error "message must atleast have command and key", []) ∧
    handlecommand 0 [] "SET a" =
      (Except.error "SET message must atleast have key and value", []) ∧
    handlecommand 0 [] "SET a b c d" =
      (Except.error "SET message must atleast have key and value", []) ∧
    handlecommand 0 [] "FOO a" =
      (Except.error ("unknown Command " ++ (fields "FOO a").getD 0 ""), []) ∧
    (handlecommand 0 [] "SET a b").1 = Except.ok "Success" :=
  ⟨C3_dispatch_validation.1 0 [] "X" (by decide),
   (C3_dispatch_validation.2.1) 0 [] "SET a" (by decide) (by decide)
     (by decide) (by decide),
   (C3_dispatch_validation.2.1) 0 [] "SET a b c d" (by decide) (by decide)
     (by decide) (by decide),
   (C3_dispatch_validation.2.2.1) 0 [] "FOO a" (by decide) (by decide),
   ((C3_dispatch_validation.2.2.2) 0 []).1⟩

/-- C4 counterexample: with `lastCronExecTime = 0`, `CronFrequency = 5`
and the current time exactly `5 = 0 + 5`, the claim's condition
`now >= lastSweepTime + sweepInterval` holds but the code's strict
`time.Now().After(...)` comparison does not run the sweep. -/
theorem C4_counterexample :
    (5 : Int) ≥ (0 : Int) + (5 : Int) ∧
    (sweepCheck 5 5 ⟨[⟨"k", "v", some 1⟩], 7, 0, 5⟩).2 = false := by
  decide

/-- C4 (amended): before polling, the sweep is invoked iff the current
time is strictly after `lastCronExecTime + CronFrequency`; when it runs,
the cache is swept and `lastCronExecTime` is set to the fresh current-time
sample, and otherwise the state is unchanged. -/
theorem C4_sweep_condition (now1 now2 : Int) (s : SState) :
    ((sweepCheck now1 now2 s).2 = true ↔
      s.lastCronExecTime + s.cronFrequency < now1)
    ∧ (s.lastCronExecTime + s.cronFrequency < now1 →
        (sweepCheck now1 now2 s).1 =
          { s with cache := cacheSweep now1 s.cache,
                   lastCronExecTime := now2 })
    ∧ (¬ s.lastCronExecTime + s.cronFrequency < now1 →
        (sweepCheck now1 now2 s).1 = s) := by
  unfold sweepCheck
  refine ⟨?_, fun h => by rw [if_pos h], fun h => by rw [if_neg h]⟩
  split <;> simp_all

/-- Witness for C4 (amended) at concrete times on either side of the
threshold. -/
theorem C4_sweep_condition_witness :
    ((sweepCheck 6 7 ⟨[], 9, 0, 5⟩).2 = true ↔ (0 : Int) + 5 < 6) ∧
    (sweepCheck 6 7 ⟨[], 9, 0, 5⟩).1 = ⟨[], 9, 7, 5⟩ ∧
    (sweepCheck 5 7 ⟨[], 9, 0, 5⟩).1 = ⟨[], 9, 0, 5⟩ := by
  refine ⟨(C4_sweep_condition 6 7 ⟨[], 9, 0, 5⟩).1, ?_,
    (C4_sweep_condition 5 7 ⟨[], 9, 0, 5⟩).2.2 (by decide)⟩
  rw [(C4_sweep_condition 6 7 ⟨[], 9, 0, 5⟩).2.1 (by decide)]
  decide

/-- C5: when dispatch produces a recoverable error and the write succeeds,
exactly the error's message text plus one newline is written back on the
same connection in place of a success payload, the handle is not closed
(hence stays registered) and the connection counter is unchanged. -/
theorem C5_error_reply (now : Int) (s : SState) (line e : String)
    (h : (handlecommand now s.cache line).1 = Except.error e) :
    clientEvent now s (some line) true =
      ⟨{ s with cache := (handlecommand now s.cache line).2 }, false,
        some (e ++ "\n")⟩ := by
  simp [clientEvent, h]

/-- Witness for C5 at the concrete line `GET nope` on an empty cache. -/
theorem C5_error_reply_witness :
    clientEvent 0 ⟨[], 3, 0, 5⟩ (some "GET nope") true =
      ⟨⟨[], 3, 0, 5⟩, false, some "key not found\n"⟩ := by
  rw [C5_error_reply 0 ⟨[], 3, 0, 5⟩ "GET nope" "key not found" (by decide)]
  decide

/-- C6: a read failure closes the handle, decrements the connection
counter and writes nothing; a write failure closes the handle and
decrements the counter; and a batch of client events never makes `Start`
return — the loop always continues. -/
theorem C6_client_io_failures :
    (∀ now s wo, clientEvent now s none wo =
      ⟨{ s with conClients := (s.conClients + uintMod - 1) % uintMod },
        true, none⟩)
    ∧ (∀ now s wo, 0 < s.conClients → s.conClients < uintMod →
        (clientEvent now s none wo).state.conClients = s.conClients - 1)
    ∧ (∀ now s line, (clientEvent now s (some line) false).closed = true
        ∧ (clientEvent now s (some line) false).state.conClients =
            (s.conClients + uintMod - 1) % uintMod)
    ∧ (∀ now s line, 0 < s.conClients → s.conClients < uintMod →
        (clientEvent now s (some line) false).state.conClients =
          s.conClients - 1)
    ∧ (∀ now s evs, (∀ ev ∈ evs, ∃ rr wo, ev = Ev.client rr wo) →
        ∃ s', processEvents now s evs = IterOut.next s') := by
  have hmod : uintMod = 18446744073709551616 := by norm_num [uintMod]
  have hdec : ∀ n : Nat, 0 < n → n < uintMod →
      (n + uintMod - 1) % uintMod = n - 1 := by
    intro n h1 h2
    rw [hmod] at h2 ⊢
    omega
  refine ⟨fun now s wo => rfl, ?_, ?_, ?_, ?_⟩
  · intro now s wo h1 h2
    exact hdec s.conClients h1 h2
  · intro now s line
    exact ⟨rfl, rfl⟩
  · intro now s line h1 h2
    exact hdec s.conClients h1 h2
  · intro now s evs h
    induction evs generalizing s with
    | nil => exact ⟨s, rfl⟩
    | cons ev rest ih =>
      obtain ⟨rr, wo, rfl⟩ := h ev (List.mem_cons_self _ _)
      exact ih (clientEvent now s rr wo).state
        (fun e he => h e (List.mem_cons_of_mem _ he))

/-- Witness for C6 at a concrete one-connection state and a singleton
client-event batch. -/
theorem C6_client_io_failures_witness :
    (clientEvent 0 ⟨[], 1, 0, 5⟩ none true).state.conClients = 0 ∧
    (clientEvent 0 ⟨[], 1, 0, 5⟩ (some "HAS k") false).state.conClients = 0 ∧
    (∃ s', processEvents 0 ⟨[], 1, 0, 5⟩ [Ev.client none true] =
      IterOut.next s') :=
  ⟨C6_client_io_failures.2.1 0 ⟨[], 1, 0, 5⟩ true (by decide) (by norm_num [uintMod]),
   C6_client_io_failures.2.2.2.1 0 ⟨[], 1, 0, 5⟩ "HAS k" (by decide)
     (by norm_num [uintMod]),
   C6_client_io_failures.2.2.2.2 0 ⟨[], 1, 0, 5⟩ [Ev.client none true]
     (by intro ev hev
         simp only [List.mem_singleton] at hev
         exact ⟨none, true, hev⟩)⟩

/-- C7: successful replies are the literal `Success` for SET (with or
without TTL) and DEL, the stored value for GET, and `Yes`/`No` for HAS;
HAS on an absent or expired key replies `No` rather than an error; and
every reply written to the connection carries exactly one appended
newline. -/
theorem C7_reply_encoding :
    (∀ c k v, (handleSet c k v).1 = Except.ok "Success")
    ∧ (∀ now c k v ttl,
        (handleSetWithTTL now c k v ttl).1 = Except.ok "Success"
        ∨ ∃ e, (handleSetWithTTL now c k v ttl).1 = Except.error e)
    ∧ (∀ now c k, (handleDel now c k).1 = Except.ok "Success"
        ∨ ∃ e, (handleDel now c k).1 = Except.error e)
    ∧ (∀ now c k, (∃ e, (handleGet now c k).1 = Except.error e)
        ∨ ∃ ent, cacheLookup c k = some ent ∧ expiredAt now ent = false
            ∧ (handleGet now c k).1 = Except.ok ent.value)
    ∧ (∀ now c k, (cacheHas now c k).1 = false →
        (handleHas now c k).1 = Except.ok "No")
    ∧ (∀ now c k, (handleHas now c k).1 = Except.ok "No"
        ∨ (handleHas now c k).1 = Except.ok "Yes")
    ∧ (∀ now s line wo, (clientEvent now s (some line) wo).written =
        some ((match (handlecommand now s.cache line).1 with
               | Except.ok r => r
               | Except.error e => e) ++ "\n")) := by
  refine ⟨fun c k v => rfl, ?_, ?_, ?_, ?_, ?_, ?_⟩
  · intro now c k v ttl
    unfold handleSetWithTTL
    rcases atoi? ttl with _ | t
    · exact Or.inr ⟨"invalid TTl", rfl⟩
    · simp only
      rcases cacheSetWithTTL now c k v t with e | c'
      · exact Or.inr ⟨e, rfl⟩
      · exact Or.inl rfl
  · intro now c k
    unfold handleDel
    rcases cacheDelete now c k with e | c'
    · exact Or.inr ⟨e, rfl⟩
    · exact Or.inl rfl
  · intro now c k
    unfold handleGet cacheGet
    rcases hl : cacheLookup c k with _ | ent
    · exact Or.inl ⟨"key not found", rfl⟩
    · simp only
      rcases hx : expiredAt now ent with _ | _
      · exact Or.inr ⟨ent, rfl, hx, by simp [hx]⟩
      · exact Or.inl ⟨"key not found", by simp [hx]⟩
  · intro now c k h
    unfold handleHas
    rcases hh : cacheHas now c k with ⟨_ | _, c'⟩
    · rfl
    · rw [hh] at h
      simp at h
  · intro now c k
    unfold handleHas
    rcases cacheHas now c k with ⟨_ | _, c'⟩
    · exact Or.inl rfl
    · exact Or.inr rfl
  · intro now s line wo
    unfold clientEvent
    cases wo <;> rfl

/-- Witness for C7: HAS on a key absent from an empty cache replies
`No`. -/
theorem C7_reply_encoding_witness :
    (handleHas 0 [] "missing").1 = Except.ok "No" :=
  C7_reply_encoding.2.2.2.2.1 0 [] "missing" (by decide)

/-- C8: a poll failure makes the main loop continue with its next
iteration — carrying the state left by the sweep check, with no events
processed — and never makes `Start` return. -/
theorem C8_poll_error_nonfatal (now1 now2 nowCmd : Int) (s : SState) :
    loopIter now1 now2 nowCmd s none =
      IterOut.next (sweepCheck now1 now2 s).1 :=
  rfl

/-- C9: a GET, DEL or HAS line with extra trailing tokens is not
rejected: it executes on the second token alone, exactly as the
corresponding two-token command would. -/
theorem C9_extra_tokens_ignored (now : Int) (c : Cache) (line key : String)
    (rest : List String) :
    (fields line = "GET" :: key :: rest →
      handlecommand now c line = handleGet now c key)
    ∧ (fields line = "DEL" :: key :: rest →
      handlecommand now c line = handleDel now c key)
    ∧ (fields line = "HAS" :: key :: rest →
      handlecommand now c line = handleHas now c key) := by
  refine ⟨?_, ?_, ?_⟩ <;>
    · intro hf
      simp only [handlecommand, hf]
      rw [if_neg (by simp only [List.length_cons]; omega)]
      simp [List.getD]

/-- Witness for C9 at the concrete lines `GET k extra`, `DEL k extra`
and `HAS k extra`. -/
theorem C9_extra_tokens_ignored_witness :
    handlecommand 0 [] "GET k extra" = handleGet 0 [] "k"
    ∧ handlecommand 0 [] "DEL k extra" = handleDel 0 [] "k"
    ∧ handlecommand 0 [] "HAS k extra" = handleHas 0 [] "k" :=
  ⟨(C9_extra_tokens_ignored 0 [] "GET k extra" "k" ["extra"]).1 (by decide),
   (C9_extra_tokens_ignored 0 [] "DEL k extra" "k" ["extra"]).2.1 (by decide),
   (C9_extra_tokens_ignored 0 [] "HAS k extra" "k" ["extra"]).2.2 (by decide)⟩

/-- C10: when subscribing a freshly accepted client handle fails, `Start`
returns that error, the handle is left open (`newHandleClosed = false`)
and the connection counter keeps the increment performed for the accept. -/
theorem C10_accept_registration_failure (now : Int) (s : SState)
    (e : String) (rest : List Ev) :
    acceptEvent s false (some e) =
      ⟨{ s with conClients := (s.conClients + 1) % uintMod }, some e, false⟩
    ∧ processEvents now s (Ev.server false (some e) :: rest) =
        IterOut.ret e
          { s with conClients := (s.conClients + 1) % uintMod } :=
  ⟨rfl, rfl⟩

end Redigo
